import Mathlib

/-!
Shallow embedding of the agent-kit orchestration layer (src/src/index.ts):
JavaScript values and falsiness, agent parameter bags, the TextAgent and
ObjectAgent classes, and the Network class with its inference, parameter
merge, dispatch and aggregation logic.  The external generation capability
(generateText, streamText, generateObject, streamObject) is modelled as an
oracle supplied by the caller; streaming output is modelled as the finite
list of text fragments drained from the stream, and the sequence of
streamCallback invocations is returned as an event log.
-/

namespace AgentKit

/-- JavaScript runtime values that can appear in an agent parameter bag:
strings, numbers, and opaque objects (model references, schema descriptors,
tool sets), which are always truthy. -/
inductive Value where
  | str (s : String)
  | num (n : Int)
  | obj (tag : String)
deriving DecidableEq, Repr

/-- JavaScript falsiness for the values of the model: the empty string and
zero are falsy, objects are truthy. -/
def Value.falsy : Value → Bool
  | .str s => s == ""
  | .num n => n == 0
  | .obj _ => false

/-- Falsiness of an optional value: an absent key (undefined) is falsy. -/
def falsyOpt : Option Value → Bool
  | none => true
  | some v => v.falsy

/-- A parameter bag: a partial mapping from option name to value,
mirroring the JavaScript object held in Agent.parameters. -/
abbrev Params := String → Option Value

/-- A patch for object spread: each key is either absent from the patch,
or present with an optional value (present-with-undefined is expressible,
as in the model key of the patch built by Network.execute). -/
abbrev Patch := String → Option (Option Value)

/-- Object spread merge, the body of setParameters:
keys of the patch overwrite, all other keys are retained. -/
def applyPatch (p : Params) (patch : Patch) : Params :=
  fun k =>
    match patch k with
    | some v => v
    | none => p k

/-- The two Agent variants of the source: TextAgent and ObjectAgent. -/
inductive AgentKind where
  | text
  | object
deriving DecidableEq, Repr

/-- An agent: its variant together with its current parameter bag. -/
structure Agent where
  kind : AgentKind
  parameters : Params

/-- Agent.setParameters: shallow-merges the patch into the held
parameters (src/src/index.ts lines 29-31). -/
def Agent.setParameters (a : Agent) (patch : Patch) : Agent :=
  { a with parameters := applyPatch a.parameters patch }

/-- Result object of a completed generation call; the orchestrator treats
it opaquely, only its text is ever observed (by inference parsing and by
the streaming/non-streaming comparison). -/
structure GenResult where
  text : String
deriving DecidableEq, Repr

/-- Output stored in the result mapping: the completed result of a text
or object generation. -/
inductive Output where
  | textResult (r : GenResult)
  | objectResult (r : GenResult)
deriving DecidableEq, Repr

/-- Text of a completed output. -/
def Output.text : Output → String
  | .textResult r => r.text
  | .objectResult r => r.text

/-- The external Generation Capability: generate-text, stream-text,
generate-object, stream-object.  Streams are modelled by the finite list
of text fragments they produce, in production order. -/
structure Oracle where
  genText : Params → GenResult
  streamText : Params → List String
  genObject : Params → GenResult
  streamObject : Params → List String

/-- A record of which generation operation an agent invoked. -/
inductive CapCall where
  | genText
  | streamText
  | genObject
  | streamObject
deriving DecidableEq, Repr

/-- Errors thrown by the orchestration layer. -/
inductive Err where
  | missingParameter (msg : String)
  | agentNotRegistered (name : String)
  | noApplicableAgents
deriving DecidableEq, Repr

/-- Message of the TextAgent validation error. -/
def textMissingMsg : String := "Both prompt and model must be provided"

/-- Message of the ObjectAgent validation error. -/
def objectMissingMsg : String := "Both prompt, schema and model must be provided"

/-- Validation message of each agent variant. -/
def missingMsg : AgentKind → String
  | .text => textMissingMsg
  | .object => objectMissingMsg

/-- Required-at-execution keys of each agent variant. -/
def requiredKeys : AgentKind → List String
  | .text => ["prompt", "model"]
  | .object => ["prompt", "schema", "model"]

/-- The TextAgent guard: if (!prompt || !model) throw. -/
def textValidationFails (p : Params) : Bool :=
  falsyOpt (p "prompt") || falsyOpt (p "model")

/-- The ObjectAgent guard (validateParameters):
if (!prompt || !schema || !model) throw. -/
def objectValidationFails (p : Params) : Bool :=
  falsyOpt (p "prompt") || falsyOpt (p "schema") || falsyOpt (p "model")

/-- Agent.execute: validate the required keys, then delegate to the
blocking generation capability.  The second component records which
capability operations were invoked. -/
def Agent.executeWithLog (o : Oracle) (a : Agent) :
    Except Err Output × List CapCall :=
  match a.kind with
  | .text =>
    if textValidationFails a.parameters then
      (.error (.missingParameter textMissingMsg), [])
    else
      (.ok (.textResult (o.genText a.parameters)), [.genText])
  | .object =>
    if objectValidationFails a.parameters then
      (.error (.missingParameter objectMissingMsg), [])
    else
      (.ok (.objectResult (o.genObject a.parameters)), [.genObject])

/-- Agent.stream: same validation, delegating to the streaming variant;
the ok value is the lazy fragment sequence, as a list. -/
def Agent.streamWithLog (o : Oracle) (a : Agent) :
    Except Err (List String) × List CapCall :=
  match a.kind with
  | .text =>
    if textValidationFails a.parameters then
      (.error (.missingParameter textMissingMsg), [])
    else
      (.ok (o.streamText a.parameters), [.streamText])
  | .object =>
    if objectValidationFails a.parameters then
      (.error (.missingParameter objectMissingMsg), [])
    else
      (.ok (o.streamObject a.parameters), [.streamObject])

/-- Fragment sequence the streaming capability produces for an agent. -/
def streamFragments (o : Oracle) (a : Agent) : List String :=
  match a.kind with
  | .text => o.streamText a.parameters
  | .object => o.streamObject a.parameters

/-- Lookup in a JavaScript Map modelled as an insertion-ordered list. -/
def mapGet {α : Type} : List (String × α) → String → Option α
  | [], _ => none
  | (k1, v) :: rest, k => if k1 = k then some v else mapGet rest k

/-- Map.set: overwrite in place if the key is present, append otherwise. -/
def mapSet {α : Type} : List (String × α) → String → α → List (String × α)
  | [], k, v => [(k, v)]
  | (k1, v1) :: rest, k, v =>
    if k1 = k then (k, v) :: rest else (k1, v1) :: mapSet rest k v

/-- The Network: a registry from agent name to Agent, plus an optional
default model reference. -/
structure Network where
  agents : List (String × Agent)
  defaultModel : Option Value

/-- Network.registerAgent: insert or overwrite a registry entry. -/
def Network.registerAgent (net : Network) (name : String) (a : Agent) :
    Network :=
  { net with agents := mapSet net.agents name a }

/-- Hard-coded fallback model used by inference when the network has no
truthy default model: openai("gpt-4o-2024-11-20"). -/
def fallbackModel : Value := .obj "openai(gpt-4o-2024-11-20)"

/-- Model reference used for the inference call:
this.parameters?.defaultModel || openai("gpt-4o-2024-11-20"). -/
def inferenceModel (net : Network) : Value :=
  match net.defaultModel with
  | some v => if v.falsy then fallbackModel else v
  | none => fallbackModel

/-- The natural-language instruction built by Network.inferAgents,
embedding the registered agent names, the user prompt and the
multipleAgents intent. -/
def inferencePromptFor (net : Network) (prompt : String)
    (multipleAgents : Bool) : String :=
  "\n      You are tasked with determining which agents should be used to handle a user\x27s request.\n      Available agents: " ++
    String.intercalate ", " (net.agents.map (fun e => e.1)) ++
    ".\n      User prompt: \"" ++ prompt ++
    "\"\n      Should multiple agents be used? " ++
    (if multipleAgents then "Yes" else "No") ++
    ".\n      Return the agent names that should be used as a comma-separated list.\n    "

/-- Parameters of the generateText call issued by inference. -/
def inferenceParams (net : Network) (prompt : String)
    (multipleAgents : Bool) : Params :=
  fun k =>
    if k = "model" then some (inferenceModel net)
    else if k = "prompt" then
      some (.str (inferencePromptFor net prompt multipleAgents))
    else if k = "maxTokens" then some (.num 50)
    else none

/-- Whitespace trimming of a character list, as String.prototype.trim. -/
def trimChars (l : List Char) : List Char :=
  ((l.dropWhile Char.isWhitespace).reverse.dropWhile Char.isWhitespace).reverse

/-- JavaScript String.prototype.trim. -/
def jsTrim (s : String) : String := ⟨trimChars s.data⟩

/-- JavaScript String.prototype.split "," on a character list: the comma
separators are removed and the (possibly empty) groups between them are
returned; the result always has at least one group. -/
def splitCommaChars : List Char → List (List Char)
  | [] => [[]]
  | c :: cs =>
    if c = ',' then [] :: splitCommaChars cs
    else
      match splitCommaChars cs with
      | [] => [[c]]
      | g :: gs => (c :: g) :: gs

/-- JavaScript text.split(","). -/
def jsSplitComma (s : String) : List String :=
  (splitCommaChars s.data).map fun l => ⟨l⟩

/-- Interpretation of the inference response:
text.trim().split(",").map(name trimmed). -/
def parseAgentNames (t : String) : List String :=
  (jsSplitComma (jsTrim t)).map jsTrim

/-- Network.inferAgents: issue one generateText call on the inference
instruction and parse its text as a comma-separated name list. -/
def Network.inferAgents (net : Network) (o : Oracle) (prompt : String)
    (multipleAgents : Bool) : List String :=
  parseAgentNames (o.genText (inferenceParams net prompt multipleAgents)).text

/-- The patch passed to agent.setParameters by Network.execute:
prompt is overwritten with the orchestration prompt, model becomes
agent.parameters.model || network default, no other key is present. -/
def executionPatch (agentParams : Params) (prompt : String)
    (dm : Option Value) : Patch :=
  fun k =>
    if k = "prompt" then some (some (.str prompt))
    else if k = "model" then
      some (if falsyOpt (agentParams "model") then dm else agentParams "model")
    else none

/-- Parameter bag of a selected agent after the merge performed by
Network.execute. -/
def mergeNetworkParams (p : Params) (prompt : String) (dm : Option Value) :
    Params :=
  applyPatch p (executionPatch p prompt dm)

/-- One executeAgent step on a resolved agent: merge parameters, then
either drain the stream (returning the callback invocation sequence) or
execute and return the completed output. -/
def executeAgentStep (o : Oracle) (dm : Option Value) (prompt : String)
    (stream : Bool) (a : Agent) :
    Except Err (Agent × Option Output × List String) :=
  let a1 := a.setParameters (executionPatch a.parameters prompt dm)
  if stream then
    match (a1.streamWithLog o).1 with
    | .error e => .error e
    | .ok frags => .ok (a1, none, frags)
  else
    match (a1.executeWithLog o).1 with
    | .error e => .error e
    | .ok out => .ok (a1, some out, [])

/-- Dispatch loop of Network.execute over the chosen agent names,
threading the registry (agents are mutated in place by setParameters),
the result mapping and the streamed-fragment log; the first failing
step rejects the whole call. -/
def runAgents (o : Oracle) (dm : Option Value) (prompt : String)
    (stream : Bool) :
    List String → List (String × Agent) → List (String × Output) →
    List String →
    Except Err (List (String × Agent) × List (String × Output) × List String)
  | [], reg, res, log => .ok (reg, res, log)
  | name :: rest, reg, res, log =>
    match mapGet reg name with
    | none => .error (.agentNotRegistered name)
    | some a =>
      match executeAgentStep o dm prompt stream a with
      | .error e => .error e
      | .ok (a1, outOpt, frags) =>
        runAgents o dm prompt stream rest (mapSet reg name a1)
          (match outOpt with
           | some out => mapSet res name out
           | none => res)
          (log ++ frags)

/-- Execution policy: only the first inferred name when multipleAgents is
false, every inferred name when it is true. -/
def dispatchList (multipleAgents : Bool) (names : List String) :
    List String :=
  if multipleAgents then names else names.take 1

/-- Body of Network.execute after inference: guard on an empty name list,
then dispatch per the execution policy; the ok value is the result mapping
together with the sequence of streamCallback invocations. -/
def Network.executeWith (net : Network) (o : Oracle) (prompt : String)
    (multipleAgents stream : Bool) (agentNames : List String) :
    Except Err (List (String × Output) × List String) :=
  if agentNames.length = 0 then .error .noApplicableAgents
  else
    match runAgents o net.defaultModel prompt stream
        (dispatchList multipleAgents agentNames) net.agents [] [] with
    | .error e => .error e
    | .ok (_, res, log) => .ok (res, log)

/-- Network.execute: infer the agent names, then dispatch. -/
def Network.execute (net : Network) (o : Oracle) (prompt : String)
    (multipleAgents stream : Bool) :
    Except Err (List (String × Output) × List String) :=
  net.executeWith o prompt multipleAgents stream
    (net.inferAgents o prompt multipleAgents)

/-- Parameter bag with a key removed, for comparing a falsy value with an
absent one. -/
def eraseKey (p : Params) (key : String) : Params :=
  fun k => if k = key then none else p k

/-! Concrete fixtures used by counterexamples and witnesses. -/

/-- The empty parameter bag of a freshly constructed agent. -/
def emptyParams : Params := fun _ => none

/-- A freshly constructed TextAgent with no parameters. -/
def freshAgent : Agent := ⟨.text, emptyParams⟩

/-- Patch writing 1 to key a. -/
def patchA1 : Patch := fun k => if k = "a" then some (some (.num 1)) else none

/-- Patch writing 2 to key b. -/
def patchB2 : Patch := fun k => if k = "b" then some (some (.num 2)) else none

/-- Patch writing 3 to key a. -/
def patchA3 : Patch := fun k => if k = "a" then some (some (.num 3)) else none

/-- Parameters holding only an agent-level model M1. -/
def pM1 : Params :=
  fun k => if k = "model" then some (.obj "M1") else none

/-- Parameters holding a tool set and an agent-level model M1. -/
def pTools : Params :=
  fun k =>
    if k = "tools" then some (.obj "T")
    else if k = "model" then some (.obj "M1") else none

/-- Parameters with a present but empty prompt and a truthy model. -/
def pEmptyPrompt : Params :=
  fun k =>
    if k = "prompt" then some (.str "")
    else if k = "model" then some (.obj "M1") else none

/-- Parameters with a truthy prompt and model. -/
def pComplete : Params :=
  fun k =>
    if k = "prompt" then some (.str "hi")
    else if k = "model" then some (.obj "M1") else none

/-- An oracle whose text generation always answers the text Hello and
whose streams produce it in two fragments. -/
def oracleHello : Oracle :=
  { genText := fun _ => ⟨"Hello"⟩
    streamText := fun _ => ["He", "llo"]
    genObject := fun _ => ⟨"Hello"⟩
    streamObject := fun _ => ["He", "llo"] }

/-- An oracle whose text generation always answers the empty text. -/
def oracleEmptyText : Oracle :=
  { genText := fun _ => ⟨""⟩
    streamText := fun _ => []
    genObject := fun _ => ⟨""⟩
    streamObject := fun _ => [] }

/-- An oracle whose text generation always answers the text a, b. -/
def oracleAB : Oracle :=
  { genText := fun _ => ⟨"a, b"⟩
    streamText := fun _ => ["He", "llo"]
    genObject := fun _ => ⟨""⟩
    streamObject := fun _ => [] }

/-- A network with one registered agent named a and default model M2. -/
def netA : Network :=
  { agents := [("a", ⟨.text, emptyParams⟩)]
    defaultModel := some (.obj "M2") }

/-- A network with two registered agents named a and b and default
model M2. -/
def netAB : Network :=
  { agents := [("a", ⟨.text, emptyParams⟩), ("b", ⟨.text, emptyParams⟩)]
    defaultModel := some (.obj "M2") }

/-- A network whose single registered agent is named Hello, matching the
answer of oracleHello so that inference selects it. -/
def netHello : Network :=
  { agents := [("Hello", ⟨.text, emptyParams⟩)]
    defaultModel := some (.obj "M2") }

/-! Helper lemmas. -/

/-- Applying the same patch twice is the same as applying it once. -/
theorem applyPatch_idem (p : Params) (patch : Patch) :
    applyPatch (applyPatch p patch) patch = applyPatch p patch := by
  funext k
  simp only [applyPatch]
  cases patch k <;> rfl

/-- Value of the model key after the merge performed by Network.execute:
the agent value if truthy, otherwise the network default. -/
theorem mergeNetworkParams_model (p : Params) (prompt : String)
    (dm : Option Value) :
    mergeNetworkParams p prompt dm "model"
      = (if falsyOpt (p "model") then dm else p "model") := rfl

/-- C8: setParameters is a pure shallow merge on the agent parameter
mapping: merging a-is-1 then b-is-2 into a fresh agent yields exactly
those two keys, a subsequent a-is-3 overwrites a and keeps b, and
applying the same patch twice in a row equals applying it once. -/
theorem c8_setParameters_shallow_merge :
    (((freshAgent.setParameters patchA1).setParameters patchB2).parameters "a"
        = some (.num 1) ∧
     ((freshAgent.setParameters patchA1).setParameters patchB2).parameters "b"
        = some (.num 2) ∧
     ((freshAgent.setParameters patchA1).setParameters patchB2).parameters "c"
        = none) ∧
    ((((freshAgent.setParameters patchA1).setParameters
          patchB2).setParameters patchA3).parameters "a" = some (.num 3) ∧
     (((freshAgent.setParameters patchA1).setParameters
          patchB2).setParameters patchA3).parameters "b" = some (.num 2)) ∧
    ∀ (a : Agent) (patch : Patch),
      (a.setParameters patch).setParameters patch = a.setParameters patch := by
  refine ⟨⟨rfl, rfl, rfl⟩, ⟨rfl, rfl⟩, ?_⟩
  intro a patch
  cases a with
  | mk kind p => simp [Agent.setParameters, applyPatch_idem]

/-- C4: at execution time the model parameter is taken from the agent
when the agent holds a truthy model value, and falls back to the network
default when the agent holds none. -/
theorem c4_model_override (p : Params) (prompt : String) (dm : Option Value) :
    (∀ m : Value, p "model" = some m → m.falsy = false →
        mergeNetworkParams p prompt dm "model" = some m) ∧
    (p "model" = none → mergeNetworkParams p prompt dm "model" = dm) := by
  constructor
  · intro m hm hf
    rw [mergeNetworkParams_model, hm]
    simp [falsyOpt, hf]
  · intro hm
    rw [mergeNetworkParams_model, hm]
    simp [falsyOpt]

/-- Witness for C4: an agent pre-configured with model M1 under a network
whose default is M2 keeps M1, and an agent with no model of its own gets
M2. -/
theorem c4_model_override_witness :
    mergeNetworkParams pM1 "p" (some (.obj "M2")) "model"
      = some (.obj "M1") ∧
    mergeNetworkParams emptyParams "p" (some (.obj "M2")) "model"
      = some (.obj "M2") :=
  ⟨(c4_model_override pM1 "p" (some (.obj "M2"))).1 (.obj "M1") rfl rfl,
   (c4_model_override emptyParams "p" (some (.obj "M2"))).2 rfl⟩

/-- C5: the merge performed by Network.execute on a selected agent always
overwrites the prompt key with the orchestration prompt, is exactly what
setParameters applies during dispatch, and leaves every key other than
prompt and model unchanged. -/
theorem c5_merge_frame (p : Params) (prompt : String) (dm : Option Value) :
    mergeNetworkParams p prompt dm "prompt" = some (.str prompt) ∧
    (∀ a : Agent,
        (a.setParameters (executionPatch a.parameters prompt dm)).parameters
          = mergeNetworkParams a.parameters prompt dm) ∧
    ∀ k : String, k ≠ "prompt" → k ≠ "model" →
      mergeNetworkParams p prompt dm k = p k := by
  refine ⟨rfl, fun a => rfl, ?_⟩
  intro k h1 h2
  simp [mergeNetworkParams, applyPatch, executionPatch, h1, h2]

/-- Witness for C5: with a pre-configured tool set and model, the prompt
is overwritten and the tool set survives unchanged. -/
theorem c5_merge_frame_witness :
    mergeNetworkParams pTools "p" (some (.obj "M2")) "prompt"
      = some (.str "p") ∧
    mergeNetworkParams pTools "p" (some (.obj "M2")) "tools"
      = pTools "tools" :=
  ⟨(c5_merge_frame pTools "p" (some (.obj "M2"))).1,
   (c5_merge_frame pTools "p" (some (.obj "M2"))).2.2 "tools"
     (by decide) (by decide)⟩

/-- Counterexample to C2: an agent whose parameters contain both required
keys (prompt present as the empty string, model present and truthy) still
raises MissingParameter from execute, so containing all required keys does
not imply execution succeeds. -/
theorem c2_counterexample :
    ((⟨.text, pEmptyPrompt⟩ : Agent).parameters "prompt").isSome = true ∧
    ((⟨.text, pEmptyPrompt⟩ : Agent).parameters "model").isSome = true ∧
    Agent.executeWithLog oracleHello ⟨.text, pEmptyPrompt⟩
      = (.error (.missingParameter textMissingMsg), []) :=
  ⟨rfl, rfl, rfl⟩

/-- C2 (amended): an agent whose required keys all hold truthy values
executes without MissingParameter and invokes the generation capability
exactly once; an agent with a required key absent or falsy raises
MissingParameter and never invokes the generation capability. -/
theorem c2_required_parameters (o : Oracle) (p : Params) :
    (falsyOpt (p "prompt") = false → falsyOpt (p "model") = false →
        Agent.executeWithLog o ⟨.text, p⟩
          = (.ok (.textResult (o.genText p)), [.genText])) ∧
    (falsyOpt (p "prompt") = true ∨ falsyOpt (p "model") = true →
        Agent.executeWithLog o ⟨.text, p⟩
          = (.error (.missingParameter textMissingMsg), [])) ∧
    (falsyOpt (p "prompt") = false → falsyOpt (p "schema") = false →
        falsyOpt (p "model") = false →
        Agent.executeWithLog o ⟨.object, p⟩
          = (.ok (.objectResult (o.genObject p)), [.genObject])) ∧
    (falsyOpt (p "prompt") = true ∨ falsyOpt (p "schema") = true ∨
        falsyOpt (p "model") = true →
        Agent.executeWithLog o ⟨.object, p⟩
          = (.error (.missingParameter objectMissingMsg), [])) := by
  refine ⟨?_, ?_, ?_, ?_⟩
  · intro h1 h2
    simp [Agent.executeWithLog, textValidationFails, h1, h2]
  · intro h
    rcases h with h | h <;>
      simp [Agent.executeWithLog, textValidationFails, h]
  · intro h1 h2 h3
    simp [Agent.executeWithLog, objectValidationFails, h1, h2, h3]
  · intro h
    rcases h with h | h | h <;>
      simp [Agent.executeWithLog, objectValidationFails, h]

/-- Witness for C2 (amended): a complete agent succeeds with one
generation call; an empty agent fails without one. -/
theorem c2_required_parameters_witness :
    Agent.executeWithLog oracleHello ⟨.text, pComplete⟩
      = (.ok (.textResult (oracleHello.genText pComplete)), [.genText]) ∧
    Agent.executeWithLog oracleHello ⟨.text, emptyParams⟩
      = (.error (.missingParameter textMissingMsg), []) :=
  ⟨(c2_required_parameters oracleHello pComplete).1 rfl rfl,
   (c2_required_parameters oracleHello emptyParams).2.1 (Or.inl rfl)⟩

/-- C10: the required-parameter checks are falsiness checks: a required
key present but equal to the empty string makes execute and stream raise
MissingParameter exactly as if the key were absent. -/
theorem c10_falsy_required_key (o : Oracle) (kind : AgentKind) (p : Params)
    (key : String) (hk : key ∈ requiredKeys kind)
    (he : p key = some (.str "")) :
    Agent.executeWithLog o ⟨kind, p⟩
      = Agent.executeWithLog o ⟨kind, eraseKey p key⟩ ∧
    (Agent.executeWithLog o ⟨kind, p⟩).1
      = .error (.missingParameter (missingMsg kind)) ∧
    Agent.streamWithLog o ⟨kind, p⟩
      = Agent.streamWithLog o ⟨kind, eraseKey p key⟩ ∧
    (Agent.streamWithLog o ⟨kind, p⟩).1
      = .error (.missingParameter (missingMsg kind)) := by
  cases kind with
  | text =>
    simp only [requiredKeys, List.mem_cons, List.not_mem_nil, or_false]
      at hk
    rcases hk with rfl | rfl <;>
      simp [Agent.executeWithLog, Agent.streamWithLog, textValidationFails,
        eraseKey, falsyOpt, Value.falsy, he, missingMsg]
  | object =>
    simp only [requiredKeys, List.mem_cons, List.not_mem_nil, or_false]
      at hk
    rcases hk with rfl | rfl | rfl <;>
      simp [Agent.executeWithLog, Agent.streamWithLog, objectValidationFails,
        eraseKey, falsyOpt, Value.falsy, he, missingMsg]

/-- Witness for C10: a present-but-empty prompt raises the TextAgent
validation error from execute. -/
theorem c10_falsy_required_key_witness :
    (Agent.executeWithLog oracleHello ⟨.text, pEmptyPrompt⟩).1
      = .error (.missingParameter (missingMsg .text)) :=
  (c10_falsy_required_key oracleHello .text pEmptyPrompt "prompt"
    (by decide) rfl).2.1

/-- Counterexample to C1: with the generation call returning the raw
text of length zero, execute does not raise NoApplicableAgents; the text
parses to a single empty name and execute raises AgentNotRegistered. -/
theorem c1_counterexample :
    netA.execute oracleEmptyText "build" false false
      = .error (.agentNotRegistered "") ∧
    netA.execute oracleEmptyText "build" false false
      ≠ .error .noApplicableAgents := by
  constructor
  · rfl
  · have h1 : netA.execute oracleEmptyText "build" false false
        = .error (.agentNotRegistered "") := rfl
    rw [h1]
    intro h
    exact absurd (Except.error.inj h) (by decide)

/-- Splitting a character list on commas always yields at least one
group. -/
theorem splitCommaChars_ne_nil (l : List Char) : splitCommaChars l ≠ [] := by
  induction l with
  | nil => simp [splitCommaChars]
  | cons c cs ih =>
    by_cases hc : c = ','
    · simp [splitCommaChars, hc]
    · simp only [splitCommaChars, if_neg hc]
      cases h : splitCommaChars cs with
      | nil => simp
      | cons g gs => simp

/-- Parsing an inference response always yields at least one name. -/
theorem parseAgentNames_ne_nil (t : String) : parseAgentNames t ≠ [] := by
  intro h
  simp only [parseAgentNames, jsSplitComma, List.map_map,
    List.map_eq_nil_iff] at h
  exact splitCommaChars_ne_nil _ h

/-- Every error produced by Agent.executeWithLog is a MissingParameter
condition. -/
theorem executeWithLog_error_shape (o : Oracle) (a : Agent) (e : Err)
    (h : (Agent.executeWithLog o a).1 = .error e) :
    ∃ msg, e = .missingParameter msg := by
  obtain ⟨kind, p⟩ := a
  cases kind with
  | text =>
    by_cases hv : textValidationFails p
    · simp [Agent.executeWithLog, hv] at h
      exact ⟨textMissingMsg, h.symm⟩
    · simp [Agent.executeWithLog, hv] at h
  | object =>
    by_cases hv : objectValidationFails p
    · simp [Agent.executeWithLog, hv] at h
      exact ⟨objectMissingMsg, h.symm⟩
    · simp [Agent.executeWithLog, hv] at h

/-- Every error produced by Agent.streamWithLog is a MissingParameter
condition. -/
theorem streamWithLog_error_shape (o : Oracle) (a : Agent) (e : Err)
    (h : (Agent.streamWithLog o a).1 = .error e) :
    ∃ msg, e = .missingParameter msg := by
  obtain ⟨kind, p⟩ := a
  cases kind with
  | text =>
    by_cases hv : textValidationFails p
    · simp [Agent.streamWithLog, hv] at h
      exact ⟨textMissingMsg, h.symm⟩
    · simp [Agent.streamWithLog, hv] at h
  | object =>
    by_cases hv : objectValidationFails p
    · simp [Agent.streamWithLog, hv] at h
      exact ⟨objectMissingMsg, h.symm⟩
    · simp [Agent.streamWithLog, hv] at h

/-- Every error produced by one executeAgent step is a MissingParameter
condition. -/
theorem executeAgentStep_error_shape (o : Oracle) (dm : Option Value)
    (prompt : String) (s : Bool) (a : Agent) (e : Err)
    (h : executeAgentStep o dm prompt s a = .error e) :
    ∃ msg, e = .missingParameter msg := by
  simp only [executeAgentStep] at h
  cases s with
  | true =>
    simp only [if_true] at h
    cases hq : (Agent.streamWithLog o
        (a.setParameters (executionPatch a.parameters prompt dm))).1 with
    | error e1 =>
      rw [hq] at h
      obtain rfl : e1 = e := by simpa using h
      exact streamWithLog_error_shape _ _ _ hq
    | ok frags => rw [hq] at h; simp at h
  | false =>
    simp only [Bool.false_eq_true, if_false] at h
    cases hq : (Agent.executeWithLog o
        (a.setParameters (executionPatch a.parameters prompt dm))).1 with
    | error e1 =>
      rw [hq] at h
      obtain rfl : e1 = e := by simpa using h
      exact executeWithLog_error_shape _ _ _ hq
    | ok out => rw [hq] at h; simp at h

/-- The dispatch loop never produces the NoApplicableAgents error. -/
theorem runAgents_ne_noApplicable (o : Oracle) (dm : Option Value)
    (prompt : String) (s : Bool) :
    ∀ (names : List String) reg res log,
      runAgents o dm prompt s names reg res log
        ≠ .error .noApplicableAgents := by
  intro names
  induction names with
  | nil => intro reg res log h; simp [runAgents] at h
  | cons name rest ih =>
    intro reg res log h
    cases hg : mapGet reg name with
    | none => simp [runAgents, hg] at h
    | some a =>
      cases hs : executeAgentStep o dm prompt s a with
      | error e =>
        simp only [runAgents, hg, hs] at h
        obtain rfl : e = Err.noApplicableAgents := by simpa using h
        obtain ⟨msg, hmsg⟩ := executeAgentStep_error_shape _ _ _ _ _ _ hs
        simp at hmsg
      | ok trip =>
        obtain ⟨a1, outOpt, frags⟩ := trip
        simp only [runAgents, hg, hs] at h
        exact ih _ _ _ h

/-- C9: parsing the inference response always yields at least one name
(the raw text of length zero parses to the single empty name), so the
branch of Network.execute that raises NoApplicableAgents is unreachable:
no execute call ever returns that error. -/
theorem c9_no_applicable_agents_unreachable :
    (∀ t : String, parseAgentNames t ≠ []) ∧
    parseAgentNames "" = [""] ∧
    (∀ (net : Network) (o : Oracle) (prompt : String) (m s : Bool),
        net.execute o prompt m s ≠ .error .noApplicableAgents) := by
  refine ⟨parseAgentNames_ne_nil, rfl, ?_⟩
  intro net o prompt m s h
  unfold Network.execute Network.executeWith at h
  by_cases h0 : (net.inferAgents o prompt m).length = 0
  · exact parseAgentNames_ne_nil _ (List.length_eq_zero.mp h0)
  · rw [if_neg h0] at h
    cases hr : runAgents o net.defaultModel prompt s
        (dispatchList m (net.inferAgents o prompt m)) net.agents [] [] with
    | error e =>
      rw [hr] at h
      obtain rfl : e = Err.noApplicableAgents := by simpa using h
      exact runAgents_ne_noApplicable o net.defaultModel prompt s _ _ _ _ hr
    | ok trip =>
      obtain ⟨reg2, res2, log2⟩ := trip
      rw [hr] at h
      simp at h

/-- C1 (amended): an empty inferred name list would make execute raise
NoApplicableAgents before any dispatch, but inference parsing never
produces an empty list; the raw text of length zero parses to the single
empty name, on which execute raises AgentNotRegistered instead when no
agent under that name is registered. -/
theorem c1_empty_selection (net : Network) (o : Oracle) (prompt : String)
    (m s : Bool) :
    net.executeWith o prompt m s [] = .error .noApplicableAgents ∧
    (∀ t : String, parseAgentNames t ≠ []) ∧
    netA.execute oracleEmptyText "build" false false
      = .error (.agentNotRegistered "") :=
  ⟨rfl, parseAgentNames_ne_nil, rfl⟩

/-- Lookup after Map.set: the written key reads the written value, all
other keys are unchanged. -/
theorem mapGet_mapSet {α : Type} (m : List (String × α)) (k k2 : String)
    (v : α) :
    mapGet (mapSet m k v) k2 = if k = k2 then some v else mapGet m k2 := by
  induction m with
  | nil => simp [mapSet, mapGet]
  | cons kv rest ih =>
    obtain ⟨k1, v1⟩ := kv
    by_cases h : k1 = k
    · subst h
      simp only [mapSet, if_pos rfl, mapGet]
      split_ifs <;> simp_all [mapGet]
    · simp only [mapSet, if_neg h, mapGet, ih]
      split_ifs <;> simp_all

/-- Key membership after Map.set. -/
theorem keys_mapSet_mem {α : Type} (m : List (String × α)) (k k2 : String)
    (v : α) :
    k2 ∈ (mapSet m k v).map Prod.fst ↔ k2 = k ∨ k2 ∈ m.map Prod.fst := by
  induction m with
  | nil => simp [mapSet]
  | cons kv rest ih =>
    obtain ⟨k1, v1⟩ := kv
    by_cases h : k1 = k
    · subst h
      simp [mapSet]
    · simp only [mapSet, if_neg h, List.map_cons, List.mem_cons, ih]
      tauto

/-- Map.set preserves distinctness of the keys. -/
theorem keys_mapSet_nodup {α : Type} (m : List (String × α)) (k : String)
    (v : α) (h : (m.map Prod.fst).Nodup) :
    ((mapSet m k v).map Prod.fst).Nodup := by
  induction m with
  | nil => simp [mapSet]
  | cons kv rest ih =>
    obtain ⟨k1, v1⟩ := kv
    simp only [List.map_cons, List.nodup_cons] at h
    by_cases hk : k1 = k
    · subst hk
      simpa [mapSet] using h
    · simp only [mapSet, if_neg hk, List.map_cons, List.nodup_cons]
      refine ⟨?_, ih h.2⟩
      rw [keys_mapSet_mem]
      rintro (h1 | h1)
      · exact hk h1
      · exact h.1 h1

/-- Splitting the dispatch loop at a list append. -/
theorem runAgents_append (o : Oracle) (dm : Option Value) (prompt : String)
    (s : Bool) :
    ∀ (l1 l2 : List String) reg res log,
      runAgents o dm prompt s (l1 ++ l2) reg res log
        = match runAgents o dm prompt s l1 reg res log with
          | .error e => .error e
          | .ok (reg2, res2, log2) =>
            runAgents o dm prompt s l2 reg2 res2 log2 := by
  intro l1
  induction l1 with
  | nil => intro l2 reg res log; simp [runAgents]
  | cons name rest ih =>
    intro l2 reg res log
    simp only [List.cons_append, runAgents]
    cases hg : mapGet reg name with
    | none => simp [hg]
    | some a =>
      simp only [hg]
      cases hs : executeAgentStep o dm prompt s a with
      | error e => simp [hs]
      | ok trip =>
        obtain ⟨a1, outOpt, frags⟩ := trip
        simp only [hs]
        exact ih l2 _ _ _

/-- The dispatch loop never adds a registry key: a name absent from the
registry stays absent. -/
theorem runAgents_preserves_absent (o : Oracle) (dm : Option Value)
    (prompt : String) (s : Bool) :
    ∀ (names : List String) reg res log reg2 res2 log2,
      runAgents o dm prompt s names reg res log = .ok (reg2, res2, log2) →
      ∀ name, mapGet reg name = none → mapGet reg2 name = none := by
  intro names
  induction names with
  | nil =>
    intro reg res log reg2 res2 log2 h name hn
    obtain ⟨rfl, rfl, rfl⟩ : reg = reg2 ∧ res = res2 ∧ log = log2 := by
      simpa [runAgents] using h
    exact hn
  | cons nm rest ih =>
    intro reg res log reg2 res2 log2 h name hn
    cases hg : mapGet reg nm with
    | none => simp [runAgents, hg] at h
    | some a =>
      cases hs : executeAgentStep o dm prompt s a with
      | error e => simp [runAgents, hg, hs] at h
      | ok trip =>
        obtain ⟨a1, outOpt, frags⟩ := trip
        simp only [runAgents, hg, hs] at h
        have hne : nm ≠ name := by
          rintro rfl
          rw [hg] at hn
          simp at hn
        have habs : mapGet (mapSet reg nm a1) name = none := by
          rw [mapGet_mapSet, if_neg hne]
          exact hn
        exact ih _ _ _ _ _ _ h name habs

/-- Dispatching a name list containing a name that is absent from the
registry always fails. -/
theorem runAgents_absent_error (o : Oracle) (dm : Option Value)
    (prompt : String) (s : Bool) :
    ∀ (names : List String) reg res log name,
      name ∈ names → mapGet reg name = none →
      ∃ e, runAgents o dm prompt s names reg res log = .error e := by
  intro names
  induction names with
  | nil => intro reg res log name hm; simp at hm
  | cons nm rest ih =>
    intro reg res log name hm hn
    cases hg : mapGet reg nm with
    | none => exact ⟨.agentNotRegistered nm, by simp [runAgents, hg]⟩
    | some a =>
      have hne : name ≠ nm := by
        rintro rfl
        rw [hg] at hn
        simp at hn
      have hmem : name ∈ rest := by
        rcases List.mem_cons.mp hm with rfl | hmem
        · exact absurd rfl hne
        · exact hmem
      cases hs : executeAgentStep o dm prompt s a with
      | error e => exact ⟨e, by simp [runAgents, hg, hs]⟩
      | ok trip =>
        obtain ⟨a1, outOpt, frags⟩ := trip
        have hn2 : mapGet (mapSet reg nm a1) name = none := by
          rw [mapGet_mapSet, if_neg fun hh => hne hh.symm]
          exact hn
        cases outOpt with
        | some out =>
          obtain ⟨e, he⟩ := ih (mapSet reg nm a1) (mapSet res nm out)
            (log ++ frags) name hmem hn2
          exact ⟨e, by simp [runAgents, hg, hs, he]⟩
        | none =>
          obtain ⟨e, he⟩ := ih (mapSet reg nm a1) res
            (log ++ frags) name hmem hn2
          exact ⟨e, by simp [runAgents, hg, hs, he]⟩

/-- Shape of a successful non-streaming executeAgent step: the merged
agent, a stored output from execute, no streamed fragments. -/
theorem executeAgentStep_false_shape (o : Oracle) (dm : Option Value)
    (prompt : String) (a a1 : Agent) (outOpt : Option Output)
    (frags : List String)
    (h : executeAgentStep o dm prompt false a = .ok (a1, outOpt, frags)) :
    a1 = a.setParameters (executionPatch a.parameters prompt dm) ∧
    frags = [] ∧
    ∃ out, outOpt = some out ∧
      (Agent.executeWithLog o
        (a.setParameters (executionPatch a.parameters prompt dm))).1
        = .ok out := by
  simp only [executeAgentStep, Bool.false_eq_true, if_false] at h
  cases hq : (Agent.executeWithLog o
      (a.setParameters (executionPatch a.parameters prompt dm))).1 with
  | error e => rw [hq] at h; simp at h
  | ok out =>
    rw [hq] at h
    obtain ⟨h1, h2, h3⟩ :
        a.setParameters (executionPatch a.parameters prompt dm) = a1 ∧
        some out = outOpt ∧ ([] : List String) = frags := by
      simpa using h
    exact ⟨h1.symm, h3.symm, out, h2.symm, rfl⟩

/-- Shape of a successful streaming executeAgent step: the merged agent,
no stored output, the drained fragments from stream. -/
theorem executeAgentStep_true_shape (o : Oracle) (dm : Option Value)
    (prompt : String) (a a1 : Agent) (outOpt : Option Output)
    (frags : List String)
    (h : executeAgentStep o dm prompt true a = .ok (a1, outOpt, frags)) :
    a1 = a.setParameters (executionPatch a.parameters prompt dm) ∧
    outOpt = none ∧
    (Agent.streamWithLog o
      (a.setParameters (executionPatch a.parameters prompt dm))).1
      = .ok frags := by
  simp only [executeAgentStep, if_true] at h
  cases hq : (Agent.streamWithLog o
      (a.setParameters (executionPatch a.parameters prompt dm))).1 with
  | error e => rw [hq] at h; simp at h
  | ok fr =>
    rw [hq] at h
    obtain ⟨h1, h2, h3⟩ :
        a.setParameters (executionPatch a.parameters prompt dm) = a1 ∧
        (none : Option Output) = outOpt ∧ fr = frags := by
      simpa using h
    exact ⟨h1.symm, h2.symm, by rw [h3]⟩

/-- Result-mapping invariant of the non-streaming dispatch loop: on
success, its keys stay distinct and are exactly the starting keys plus
the dispatched names. -/
theorem runAgents_keys_false (o : Oracle) (dm : Option Value)
    (prompt : String) :
    ∀ (names : List String) reg res log reg2 res2 log2,
      runAgents o dm prompt false names reg res log = .ok (reg2, res2, log2) →
      ((res.map Prod.fst).Nodup → (res2.map Prod.fst).Nodup) ∧
      (∀ n, n ∈ res2.map Prod.fst ↔ n ∈ res.map Prod.fst ∨ n ∈ names) := by
  intro names
  induction names with
  | nil =>
    intro reg res log reg2 res2 log2 h
    obtain ⟨rfl, rfl, rfl⟩ : reg = reg2 ∧ res = res2 ∧ log = log2 := by
      simpa [runAgents] using h
    exact ⟨id, by simp⟩
  | cons nm rest ih =>
    intro reg res log reg2 res2 log2 h
    cases hg : mapGet reg nm with
    | none => simp [runAgents, hg] at h
    | some a =>
      cases hs : executeAgentStep o dm prompt false a with
      | error e => simp [runAgents, hg, hs] at h
      | ok trip =>
        obtain ⟨a1, outOpt, frags⟩ := trip
        obtain ⟨-, -, out, hout, -⟩ :=
          executeAgentStep_false_shape o dm prompt a a1 outOpt frags hs
        subst hout
        simp only [runAgents, hg, hs] at h
        obtain ⟨hnd, hmem⟩ := ih _ _ _ _ _ _ h
        constructor
        · intro hres
          exact hnd (keys_mapSet_nodup _ _ _ hres)
        · intro n
          rw [hmem n, keys_mapSet_mem]
          simp only [List.mem_cons]
          tauto

/-- C3: if an inferred, dispatched agent name has no registry entry, the
whole Network.execute call rejects (no result mapping is returned, so no
sibling output is observable through it); and when every agent dispatched
before that name succeeded, the rejection error is AgentNotRegistered
with that name. -/
theorem c3_unregistered_rejects (net : Network) (o : Oracle)
    (prompt : String) (m s : Bool) (name : String)
    (hmem : name ∈ dispatchList m (net.inferAgents o prompt m))
    (habs : mapGet net.agents name = none) :
    (∃ e, net.execute o prompt m s = .error e) ∧
    ∀ pre rest,
      dispatchList m (net.inferAgents o prompt m) = pre ++ name :: rest →
      (runAgents o net.defaultModel prompt s pre net.agents [] []).isOk
        = true →
      net.execute o prompt m s = .error (.agentNotRegistered name) := by
  have hne : net.inferAgents o prompt m ≠ [] := parseAgentNames_ne_nil _
  have hlen : ¬ (net.inferAgents o prompt m).length = 0 := by
    simpa [List.length_eq_zero] using hne
  constructor
  · obtain ⟨e, he⟩ := runAgents_absent_error o net.defaultModel prompt s
      (dispatchList m (net.inferAgents o prompt m)) net.agents [] [] name
      hmem habs
    refine ⟨e, ?_⟩
    unfold Network.execute Network.executeWith
    rw [if_neg hlen, he]
  · intro pre rest hsplit hok
    unfold Network.execute Network.executeWith
    rw [if_neg hlen, hsplit, runAgents_append]
    cases hr : runAgents o net.defaultModel prompt s pre net.agents [] []
        with
    | error e => rw [hr] at hok; simp [Except.isOk, Except.toBool] at hok
    | ok trip =>
      obtain ⟨reg2, res2, log2⟩ := trip
      have habs2 : mapGet reg2 name = none :=
        runAgents_preserves_absent o net.defaultModel prompt s pre
          net.agents [] [] reg2 res2 log2 hr name habs
      simp [runAgents, habs2]

/-- Witness for C3: with only agent a registered and inference answering
a, b, the whole call rejects with AgentNotRegistered b although agent a
completed. -/
theorem c3_unregistered_rejects_witness :
    netA.execute oracleAB "p" true false
      = .error (.agentNotRegistered "b") :=
  (c3_unregistered_rejects netA oracleAB "p" true false "b" (by decide)
    rfl).2 ["a"] [] rfl rfl

/-- C6: with multipleAgents false and non-streaming, only the first
inferred name is dispatched and a successful call returns a mapping with
exactly one entry, keyed by that first name; with multipleAgents true and
non-streaming, a successful call returns a mapping whose keys are
distinct and exactly the inferred names. -/
theorem c6_execution_policy :
    dispatchList false ["a", "b"] = ["a"] ∧
    (∀ (net : Network) (o : Oracle) (prompt : String)
        (res : List (String × Output)) (log : List String),
        net.execute o prompt false false = .ok (res, log) →
        ∃ out : Output,
          res = [((net.inferAgents o prompt false).headD "", out)]) ∧
    (∀ (net : Network) (o : Oracle) (prompt : String)
        (res : List (String × Output)) (log : List String),
        net.execute o prompt true false = .ok (res, log) →
        (res.map Prod.fst).Nodup ∧
        ∀ n, n ∈ res.map Prod.fst ↔ n ∈ net.inferAgents o prompt true) := by
  refine ⟨rfl, ?_, ?_⟩
  · intro net o prompt res log h
    have hne : net.inferAgents o prompt false ≠ [] :=
      parseAgentNames_ne_nil _
    obtain ⟨nm, t, hnt⟩ := List.exists_cons_of_ne_nil hne
    unfold Network.execute Network.executeWith at h
    rw [hnt] at h
    rw [if_neg (by simp)] at h
    have hd : dispatchList false (nm :: t) = [nm] := by simp [dispatchList]
    rw [hd] at h
    cases hg : mapGet net.agents nm with
    | none => simp [runAgents, hg] at h
    | some a =>
      cases hs : executeAgentStep o net.defaultModel prompt false a with
      | error e => simp [runAgents, hg, hs] at h
      | ok trip =>
        obtain ⟨a1, outOpt, frags⟩ := trip
        obtain ⟨-, hfr, out, hout, -⟩ :=
          executeAgentStep_false_shape o net.defaultModel prompt a a1
            outOpt frags hs
        subst hout
        subst hfr
        simp only [runAgents, hg, hs] at h
        have h3 : (([(nm, out)] : List (String × Output)),
            ([] : List String)) = (res, log) := Except.ok.inj h
        injection h3 with hres hlog
        refine ⟨out, ?_⟩
        rw [hnt, ← hres, List.headD_cons]
  · intro net o prompt res log h
    have hne : net.inferAgents o prompt true ≠ [] :=
      parseAgentNames_ne_nil _
    unfold Network.execute Network.executeWith at h
    rw [if_neg fun h0 => hne (List.length_eq_zero.mp h0)] at h
    cases hr : runAgents o net.defaultModel prompt false
        (dispatchList true (net.inferAgents o prompt true))
        net.agents [] [] with
    | error e => rw [hr] at h; simp at h
    | ok trip =>
      obtain ⟨reg2, res2, log2⟩ := trip
      rw [hr] at h
      have h3 : (res2, log2) = (res, log) := Except.ok.inj h
      injection h3 with hres hlog
      subst hres
      have hkeys := runAgents_keys_false o net.defaultModel prompt
        _ _ _ _ _ _ _ hr
      refine ⟨hkeys.1 (by simp), ?_⟩
      intro n
      have hn := hkeys.2 n
      simpa [dispatchList] using hn

/-- Witness for C6: inference answering a, b over a network with both
registered yields a two-entry mapping with distinct keys a and b. -/
theorem c6_execution_policy_witness :
    (([("a", Output.textResult ⟨"a, b"⟩),
        ("b", Output.textResult ⟨"a, b"⟩)].map Prod.fst).Nodup ∧
     ("a" ∈ [("a", Output.textResult (⟨"a, b"⟩ : GenResult)),
        ("b", Output.textResult ⟨"a, b"⟩)].map Prod.fst ↔
      "a" ∈ netAB.inferAgents oracleAB "p" true)) ∧
    ∃ out : Output,
      [("a", Output.textResult (⟨"a, b"⟩ : GenResult))]
        = [((netAB.inferAgents oracleAB "p" false).headD "", out)] := by
  have h2 := c6_execution_policy.2.2 netAB oracleAB "p"
    [("a", Output.textResult ⟨"a, b"⟩),
     ("b", Output.textResult ⟨"a, b"⟩)] [] rfl
  have h1 := c6_execution_policy.2.1 netAB oracleAB "p"
    [("a", Output.textResult ⟨"a, b"⟩)] [] rfl
  exact ⟨⟨h2.1, h2.2 "a"⟩, h1⟩

/-- Linking a successful stream and a successful execute on the same
agent: the fragments are the stream of its parameters, and when the
capability is stream-consistent their concatenation is the text of the
completed output. -/
theorem stream_execute_consistency (o : Oracle) (a : Agent)
    (frags : List String) (out : Output)
    (h1 : (Agent.streamWithLog o a).1 = .ok frags)
    (h2 : (Agent.executeWithLog o a).1 = .ok out)
    (hct : ∀ p : Params, String.join (o.streamText p) = (o.genText p).text)
    (hco : ∀ p : Params,
      String.join (o.streamObject p) = (o.genObject p).text) :
    frags = streamFragments o a ∧ String.join frags = out.text := by
  obtain ⟨kind, p⟩ := a
  cases kind with
  | text =>
    by_cases hv : textValidationFails p
    · simp [Agent.streamWithLog, hv] at h1
    · simp [Agent.streamWithLog, hv] at h1
      simp [Agent.executeWithLog, hv] at h2
      subst h1
      subst h2
      exact ⟨rfl, by simpa [streamFragments, Output.text] using hct p⟩
  | object =>
    by_cases hv : objectValidationFails p
    · simp [Agent.streamWithLog, hv] at h1
    · simp [Agent.streamWithLog, hv] at h1
      simp [Agent.executeWithLog, hv] at h2
      subst h1
      subst h2
      exact ⟨rfl, by simpa [streamFragments, Output.text] using hco p⟩

/-- C7: in streaming mode the streamed agent gets no entry in the
returned mapping (the mapping of a single-dispatch streaming run is
empty); the streamCallback invocation log is exactly the fragment
sequence the capability produces for the merged agent, in order; and for
a stream-consistent capability its concatenation equals the text of the
output the non-streaming run stores for the same input. -/
theorem c7_streaming_semantics (net : Network) (o : Oracle)
    (prompt : String) (resS resN : List (String × Output))
    (logS logN : List String)
    (hs : net.execute o prompt false true = .ok (resS, logS))
    (hn : net.execute o prompt false false = .ok (resN, logN))
    (hct : ∀ p : Params, String.join (o.streamText p) = (o.genText p).text)
    (hco : ∀ p : Params,
      String.join (o.streamObject p) = (o.genObject p).text) :
    resS = [] ∧
    ∃ a out,
      mapGet net.agents ((net.inferAgents o prompt false).headD "")
        = some a ∧
      logS = streamFragments o
        (a.setParameters (executionPatch a.parameters prompt
          net.defaultModel)) ∧
      resN = [((net.inferAgents o prompt false).headD "", out)] ∧
      String.join logS = out.text := by
  have hne : net.inferAgents o prompt false ≠ [] := parseAgentNames_ne_nil _
  obtain ⟨nm, t, hnt⟩ := List.exists_cons_of_ne_nil hne
  unfold Network.execute Network.executeWith at hs hn
  rw [hnt] at hs hn
  rw [if_neg (by simp)] at hs hn
  have hd : dispatchList false (nm :: t) = [nm] := by simp [dispatchList]
  rw [hd] at hs hn
  cases hg : mapGet net.agents nm with
  | none => simp [runAgents, hg] at hs
  | some a =>
    cases hstS : executeAgentStep o net.defaultModel prompt true a with
    | error e => simp [runAgents, hg, hstS] at hs
    | ok tripS =>
      obtain ⟨aS, outS, fragsS⟩ := tripS
      obtain ⟨haS, houtS, hokS⟩ :=
        executeAgentStep_true_shape o net.defaultModel prompt a aS outS
          fragsS hstS
      subst haS
      subst houtS
      simp only [runAgents, hg, hstS] at hs
      have h3S : (([] : List (String × Output)), [] ++ fragsS)
          = (resS, logS) := Except.ok.inj hs
      injection h3S with hresS hlogS
      cases hstN : executeAgentStep o net.defaultModel prompt false a with
      | error e => simp [runAgents, hg, hstN] at hn
      | ok tripN =>
        obtain ⟨aN, outN, fragsN⟩ := tripN
        obtain ⟨haN, hfrN, out, houtN, hokN⟩ :=
          executeAgentStep_false_shape o net.defaultModel prompt a aN
            outN fragsN hstN
        subst haN
        subst houtN
        subst hfrN
        simp only [runAgents, hg, hstN] at hn
        have h3N : (([(nm, out)] : List (String × Output)),
            ([] : List String) ++ []) = (resN, logN) := Except.ok.inj hn
        injection h3N with hresN hlogN
        obtain ⟨hfr, hjoin⟩ := stream_execute_consistency o
          (a.setParameters (executionPatch a.parameters prompt
            net.defaultModel)) fragsS out hokS hokN hct hco
        refine ⟨hresS.symm, a, out, ?_, ?_, ?_, ?_⟩
        · rw [hnt]; exact hg
        · rw [← hlogS]; simpa using hfr
        · rw [hnt, ← hresN, List.headD_cons]
        · rw [← hlogS]; simpa using hjoin

/-- Witness for C7: a network whose agent name matches the constant
oracle answer, streamed in two fragments whose concatenation is the
non-streaming text. -/
theorem c7_streaming_semantics_witness :
    ([] : List (String × Output)) = [] ∧
    ∃ a out,
      mapGet netHello.agents
        ((netHello.inferAgents oracleHello "p" false).headD "")
        = some a ∧
      ["He", "llo"] = streamFragments oracleHello
        (a.setParameters (executionPatch a.parameters "p"
          netHello.defaultModel)) ∧
      [("Hello", Output.textResult ⟨"Hello"⟩)]
        = [((netHello.inferAgents oracleHello "p" false).headD "", out)] ∧
      String.join ["He", "llo"] = out.text :=
  c7_streaming_semantics netHello oracleHello "p" []
    [("Hello", Output.textResult ⟨"Hello"⟩)] ["He", "llo"] []
    rfl rfl (fun _ => rfl) (fun _ => rfl)

end AgentKit
